import Mathlib

/-!
Verification of the `jsonschematree` package of glints-dev/mcp-netsuite
(src/pkg/netsuite/netsuite.go, package jsonschematree): the schema node
model, the type-set normalizer (`Schema.UnmarshalJSON` / `schemaType.MarshalJSON`
/ `Schema.BaseType`), the stack-based tree walker (`Schema.Walk`) and the
reference-resolution visitor (`Schema.resolveReference` / `ResolveReferences`).

Modelling conventions:
- Go maps that come from JSON objects are modelled as association lists; Go's
  nondeterministic map iteration order is refined to list order.
- Machine state that Go mutates through pointers is threaded explicitly: a
  visitor is a function `Schema -> Except String Schema` returning the mutated
  node, and the walk loop is a fuel-indexed step function over the explicit
  work stack (the source's `for !stack.Empty()` loop has no structural
  termination argument, and indeed need not terminate for tree-growing
  visitors).
- `walkLoop` additionally returns, on success, the trace of nodes passed to
  the visitor (the arguments of the source's `walker.Walk(...)` calls, in call
  order); the Go function returns only the error, the trace is ghost
  instrumentation used to state visitation claims.
-/

/-- A parsed JSON value, the result of Go's `json.Unmarshal` into
`interface{}`: an object becomes a string-keyed map (here an association
list), an array becomes `[]interface{}` (here `.arr`), and scalars become
`string` / `float64` / `bool` / `nil`.  Note that `json.Unmarshal` into
`interface{}` never produces a `[]string`: a JSON array always arrives as
`[]interface{}` (`.arr`), whatever its element types. -/
inductive JVal where
  | null
  | bool (b : Bool)
  | num (n : Int)
  | str (s : String)
  | arr (elems : List JVal)
  | obj (fields : List (String × JVal))

/-- The `Schema` struct of package jsonschematree (netsuite.go lines 284-294):
`Type` (the `schemaType` slice of primitive type tags), `Properties` (a
possibly-absent map from property name to child schema), `Items`, `Format`,
`OneOf`, `ID` (`$id`) and `Ref` (`$ref`). `nil` maps/slices/pointers are
`none` / `[]`. -/
inductive Schema where
  | mk : (type : List String) → (properties : Option (List (String × Schema))) →
      (items : Option Schema) → (format : String) → (oneOf : List Schema) →
      (id : String) → (ref : String) → Schema

/-- Projection for the `Type` field (`schemaType`, a `[]string`). -/
def Schema.type : Schema → List String
  | .mk t _ _ _ _ _ _ => t

/-- Projection for the `Properties` field. -/
def Schema.properties : Schema → Option (List (String × Schema))
  | .mk _ p _ _ _ _ _ => p

/-- Projection for the `Items` field. -/
def Schema.items : Schema → Option Schema
  | .mk _ _ i _ _ _ _ => i

/-- Projection for the `Format` field. -/
def Schema.format : Schema → String
  | .mk _ _ _ f _ _ _ => f

/-- Projection for the `OneOf` field. -/
def Schema.oneOf : Schema → List Schema
  | .mk _ _ _ _ o _ _ => o

/-- Projection for the `ID` field. -/
def Schema.id : Schema → String
  | .mk _ _ _ _ _ i _ => i

/-- Projection for the `Ref` field. -/
def Schema.ref : Schema → String
  | .mk _ _ _ _ _ _ r => r

/-- The loop of `Schema.BaseType` (lines 426-431) that collects
`typesWithoutNull` by appending every tag different from `"null"`:
a list filter. -/
def typesWithoutNull (types : List String) : List String :=
  types.filter (fun propertyType => propertyType != "null")

/-- `Schema.BaseType` (netsuite.go lines 421-440): the empty sentinel `""`
when the type slice is empty, otherwise `"null"` / the unique tag / `""`
according to whether stripping `"null"` leaves zero, one, or several tags. -/
def Schema.BaseType (s : Schema) : String :=
  match s.type with
  | [] => ""
  | _ :: _ =>
    match typesWithoutNull s.type with
    | [] => "null"
    | [t] => t
    | _ => ""

/-- Insertion into the `propertyTypeSet` map of `Schema.UnmarshalJSON`
(`propertyTypeSet[x] = struct{}{}`): a set insert.  The set is represented
as a duplicate-free list in insertion order (a deterministic refinement of
Go's map iteration order in lines 356-359, which claims never depend on
except for single-element sets). -/
def insertTag (set : List String) (x : String) : List String :=
  if x ∈ set then set else set ++ [x]

/-- The type switch of `Schema.UnmarshalJSON` on the value `json.Unmarshal`
produced for the raw `"type"` field (lines 332-341).  The source has three
cases: `case []string`, `case string`, and `default` (a parse error).  Since
`json.Unmarshal` into `interface{}` materialises a JSON array as
`[]interface{}` and never as `[]string` (see `JVal`), the `case []string`
branch of the source can never fire: the reachable behaviour is that a JSON
string adds one tag and every other value, arrays included, hits `default`. -/
def typeSetOfTypeField (set : List String) (v : JVal) : Except String (List String) :=
  match v with
  | .str propertyType => .ok (insertTag set propertyType)
  | _ => .error "unexpected type for property \"type\""

/-- The `nullable` handling of `Schema.UnmarshalJSON` (lines 344-354): absent
means no change, a boolean `true` inserts `"null"`, a boolean `false` is a
no-op, and any non-boolean value is an unmarshal error. -/
def applyNullable (set : List String) (v : Option JVal) : Except String (List String) :=
  match v with
  | none => .ok set
  | some (.bool true) => .ok (insertTag set "null")
  | some (.bool false) => .ok set
  | some _ => .error "failed to unmarshal JSON"

/-- The full type-set construction of `Schema.UnmarshalJSON` (lines 323-360):
start from the empty set, process the raw `"type"` value if present, then the
raw `"nullable"` value if present. -/
def buildTypeSet (typeField : Option JVal) (nullableField : Option JVal) :
    Except String (List String) := do
  let set ←
    match typeField with
    | none => pure []
    | some v => typeSetOfTypeField [] v
  applyNullable set nullableField

/-- `schemaType.MarshalJSON` (netsuite.go lines 298-304): a one-element type
slice serializes as the bare JSON string, every other length (zero included)
serializes as a JSON array of strings.  (A `nil` slice would marshal as JSON
`null` in Go, but every slice this package constructs is non-nil, so the
empty list faithfully models the empty non-nil slice.) -/
def marshalSchemaType (t : List String) : JVal :=
  match t with
  | [x] => .str x
  | _ => .arr (t.map .str)

/-- The `$ref` handling of `Schema.UnmarshalJSON` (lines 312-321): absent
leaves the zero value `""`, a string is taken as is, anything else is an
unmarshal error. -/
def parseRefField : Option JVal → Except String String
  | none => .ok ""
  | some (.str r) => .ok r
  | some _ => .error "failed to unmarshal JSON"

/-- The `format` handling of `Schema.UnmarshalJSON` (lines 396-405). -/
def parseFormatField : Option JVal → Except String String
  | none => .ok ""
  | some (.str f) => .ok f
  | some _ => .error "failed to unmarshal JSON"

mutual

/-- `Schema.UnmarshalJSON` (netsuite.go lines 306-419), fuel-indexed: the Go
code recurses through `json.Unmarshal` on `properties` values, `items` and
`oneOf` elements; the fuel bounds that recursion depth (every reachable claim
is stated either for an explicit `fuel + 1` or under a success hypothesis).
Field order follows the source: `$ref`, `type`, `nullable`, `properties`,
`items`, `format`, `oneOf`.  The `$id` field is never read by the source's
custom unmarshaller, so `id` is always the zero value `""`.  A `properties`
object that parses to zero entries is dropped (`len(parsedProperties) != 0`,
line 380). -/
def unmarshalSchema : Nat → JVal → Except String Schema
  | 0, _ => .error "maximum schema nesting depth exceeded"
  | fuel + 1, v =>
    match v with
    | .obj fields => do
      let refStr ← parseRefField (fields.lookup "$ref")
      let set ← buildTypeSet (fields.lookup "type") (fields.lookup "nullable")
      let props ←
        match fields.lookup "properties" with
        | none => pure none
        | some (.obj propFields) => do
          let parsed ← unmarshalSchemaProps fuel propFields
          pure (if parsed.isEmpty then none else some parsed)
        | some _ => throw "failed to unmarshal JSON"
      let itemsOpt ←
        match fields.lookup "items" with
        | none => pure none
        | some iv => do
          let it ← unmarshalSchema fuel iv
          pure (some it)
      let fmt ← parseFormatField (fields.lookup "format")
      let oneOf ←
        match fields.lookup "oneOf" with
        | none => pure []
        | some (.arr alts) => unmarshalSchemaList fuel alts
        | some _ => throw "failed to unmarshal JSON"
      pure (Schema.mk set props itemsOpt fmt oneOf "" refStr)
    | _ => .error "failed to unmarshal JSON"

/-- The `properties` loop of `Schema.UnmarshalJSON` (lines 362-383): parse
every value of the properties object as a schema. -/
def unmarshalSchemaProps : Nat → List (String × JVal) → Except String (List (String × Schema))
  | 0, _ => .error "maximum schema nesting depth exceeded"
  | _ + 1, [] => .ok []
  | fuel + 1, (key, value) :: rest => do
    let valueAsSchema ← unmarshalSchema fuel value
    let parsedRest ← unmarshalSchemaProps fuel rest
    pure ((key, valueAsSchema) :: parsedRest)

/-- The `oneOf` handling of `Schema.UnmarshalJSON` (lines 407-416): parse
every element of the array as a schema. -/
def unmarshalSchemaList : Nat → List JVal → Except String (List Schema)
  | 0, _ => .error "maximum schema nesting depth exceeded"
  | _ + 1, [] => .ok []
  | fuel + 1, v :: rest => do
    let s ← unmarshalSchema fuel v
    let parsedRest ← unmarshalSchemaList fuel rest
    pure (s :: parsedRest)

end

/-- A `SchemaWalker` (netsuite.go lines 573-575) in explicit-state form: the
Go visitor receives a `*Schema` and may mutate it and fail; here it returns
the mutated node or the error. -/
abbrev SchemaWalker := Schema → Except String Schema

/-- A reference resolver (netsuite.go lines 458-460) in explicit form. -/
abbrev ReferenceResolver := String → Except String Schema

/-- `Schema.resolveReference` (netsuite.go lines 464-487): a no-op on an
empty `Ref`; otherwise resolve the reference and, on success, clear `Ref` and
overwrite `ID`, `Type`, `Properties` and `Items` from the resolved schema,
leaving `Format` and `OneOf` as they were.  On resolver failure the error is
wrapped and propagated. -/
def resolveReference (resolver : ReferenceResolver) (s : Schema) : Except String Schema :=
  if s.ref = "" then .ok s
  else
    match resolver s.ref with
    | .error e =>
      .error ("failed to resolve ref \"" ++ s.ref ++ "\" using resolver: " ++ e)
    | .ok refSchema =>
      .ok (Schema.mk refSchema.type refSchema.properties refSchema.items
        s.format s.oneOf refSchema.id "")

/-- The resolver queries `Schema.resolveReference` performs on a given node:
none when `Ref` is empty (the early return on line 466 fires before the
resolver is consulted), exactly one query with the reference string
otherwise. -/
def resolveReferenceCalls (s : Schema) : List String :=
  if s.ref = "" then [] else [s.ref]

/-- The no-op visitor: it is what `resolveReference` degenerates to on
ref-free nodes, and the visitor used to state pure-traversal claims. -/
def noopWalker : SchemaWalker := fun s => .ok s

/-- `gojsonschema.TYPE_ARRAY`, the constant compared against on line 540. -/
def TYPE_ARRAY : String := "array"

/-- `gojsonschema.TYPE_OBJECT`, the constant compared against on line 561. -/
def TYPE_OBJECT : String := "object"

/-- The walker's work-stack entry `stackItem` (netsuite.go lines 577-580):
a node together with the path used to reach it.  In the source the `Node`
field is a `*Schema`; because the walker only ever follows each pointer once
in a tree-shaped heap, the entry here carries the node's current value. -/
structure StackItem where
  node : Schema
  path : List String

/-- Errors `Schema.Walk` can return, distinguished the way the source's
formatted strings distinguish them: `visitorErr` wraps a failing
`walker.Walk` call (`"failed to resolve json schema reference: %w"`,
the ResolutionError kind of the spec), while `typeNotFound` and
`itemsNotFound` are the two SchemaShapeError messages
(`"key \"type\" not found on property %s"` of line 534 and
`"key \"items\" not found on property %s"` of line 543), each naming the
offending property. -/
inductive WalkErr where
  | visitorErr (msg : String)
  | typeNotFound (property : String)
  | itemsNotFound (property : String)

/-- The `oneOf` alternatives loop of `Schema.Walk` (lines 515-527): call the
visitor on every alternative and push every alternative.  Returns the trace
of visitor arguments (the pre-mutation values) and the items pushed (the
post-mutation values, since the pushed pointer's contents when later popped
are the mutated ones), in push order. -/
def visitAlts (walker : SchemaWalker) (path : List String) (property : String) :
    List Schema → Except WalkErr (List Schema × List StackItem)
  | [] => .ok ([], [])
  | alternative :: rest =>
    match walker alternative with
    | .error e => .error (.visitorErr e)
    | .ok alternative' =>
      match visitAlts walker path property rest with
      | .error e => .error e
      | .ok (tr, ps) =>
        .ok (alternative :: tr,
          ⟨alternative', path ++ ["properties", property, "oneOf"]⟩ :: ps)

/-- The properties loop of one iteration of `Schema.Walk` (lines 506-567):
for each property, call the visitor on its schema; if the (mutated) schema
has a non-empty `OneOf`, process the alternatives and go to the next property
(the `continue` on line 529 skips the base-type dispatch); otherwise dispatch
on `BaseType()` of the mutated schema: the empty sentinel is a shape error,
`"array"` requires `Items` (a shape error when absent) and visits and pushes
it, `"object"` pushes the property's schema itself, and any other tag pushes
nothing.  Returns the visitor-argument trace and the pushed items in push
order. -/
def processProps (walker : SchemaWalker) (path : List String) :
    List (String × Schema) → Except WalkErr (List Schema × List StackItem)
  | [] => .ok ([], [])
  | (property, schema) :: rest =>
    match walker schema with
    | .error e => .error (.visitorErr e)
    | .ok schema' =>
      if schema'.oneOf.isEmpty then
        if schema'.BaseType = "" then .error (.typeNotFound property)
        else if schema'.BaseType = TYPE_ARRAY then
          match schema'.items with
          | none => .error (.itemsNotFound property)
          | some items =>
            match walker items with
            | .error e => .error (.visitorErr e)
            | .ok items' =>
              match processProps walker path rest with
              | .error e => .error e
              | .ok (tr, ps) =>
                .ok (schema :: items :: tr,
                  ⟨items', path ++ ["properties", property, "items"]⟩ :: ps)
        else if schema'.BaseType = TYPE_OBJECT then
          match processProps walker path rest with
          | .error e => .error e
          | .ok (tr, ps) =>
            .ok (schema :: tr, ⟨schema', path ++ ["properties", property]⟩ :: ps)
        else
          match processProps walker path rest with
          | .error e => .error e
          | .ok (tr, ps) => .ok (schema :: tr, ps)
      else
        match visitAlts walker path property schema'.oneOf with
        | .error e => .error e
        | .ok (trA, psA) =>
          match processProps walker path rest with
          | .error e => .error e
          | .ok (tr, ps) => .ok (schema :: (trA ++ tr), psA ++ ps)

/-- The main loop of `Schema.Walk` (lines 498-568), fuel-indexed because the
loop need not terminate for arbitrary mutating visitors: pop the top item
(the stack list's head is the top, so the source's append-to-end pushes
become a reversed prepend); skip it if its node has no properties; otherwise
process its properties, abort on their error, and continue with the pushed
items on top.  `none` means the fuel ran out (the source loop is still
running); `some r` is the loop's result, carrying on success the full
visitor-argument trace. -/
def walkLoop (walker : SchemaWalker) : Nat → List StackItem → Option (Except WalkErr (List Schema))
  | _, [] => some (.ok [])
  | 0, _ :: _ => none
  | fuel + 1, item :: rest =>
    match item.node.properties with
    | none => walkLoop walker fuel rest
    | some props =>
      match processProps walker item.path props with
      | .error e => some (.error e)
      | .ok (tr, pushes) =>
        match walkLoop walker fuel (pushes.reverse ++ rest) with
        | none => none
        | some (.error e) => some (.error e)
        | some (.ok tr') => some (.ok (tr ++ tr'))

/-- `Schema.Walk` (netsuite.go lines 491-571): run the loop from a stack
holding the root with the empty path. -/
def Schema.Walk (s : Schema) (walker : SchemaWalker) (fuel : Nat) :
    Option (Except WalkErr (List Schema)) :=
  walkLoop walker fuel [⟨s, []⟩]

/-- `Schema.ResolveReferences` (netsuite.go lines 443-447): walk the tree
with the reference-resolving visitor. -/
def Schema.ResolveReferences (s : Schema) (resolver : ReferenceResolver) (fuel : Nat) :
    Option (Except WalkErr (List Schema)) :=
  s.Walk (resolveReference resolver) fuel

/-- Schema-node sum of a work stack, the termination measure of the walk
loop for non-growing visitors (a proof-side measure, not program code). -/
noncomputable def stackSize : List StackItem → Nat
  | [] => 0
  | item :: rest => sizeOf item.node + stackSize rest

/-- Sum of the sizes of a list of schemas (used for `OneOf`). -/
noncomputable def schemaListSize : List Schema → Nat
  | [] => 0
  | s :: rest => sizeOf s + schemaListSize rest

/-- Sum of the sizes of the property values of a properties map. -/
noncomputable def propsChildSize : List (String × Schema) → Nat
  | [] => 0
  | (_, s) :: rest => sizeOf s + propsChildSize rest

/-- A property schema the walker merely visits: no `oneOf` alternatives and a
scalar base type, so the dispatch of lines 532-566 neither errors nor pushes
anything for it. -/
def ScalarProp (s : Schema) : Prop :=
  s.oneOf = [] ∧ s.BaseType ≠ "" ∧ s.BaseType ≠ TYPE_ARRAY ∧ s.BaseType ≠ TYPE_OBJECT

/-- A visitor for which the walk loop diverges: it replaces every node by an
object node whose single property `a` holds the old node, so every pushed
object re-wraps its child forever.  It terminates on every call, mutates no
node into a shared or cyclic structure, yet defeats the walk's termination. -/
def wrapWalker : SchemaWalker :=
  fun s => .ok (Schema.mk ["object"] (some [("a", s)]) none "" [] "" "")

/-- Concrete example node: a plain string-typed leaf. -/
def exLeafString : Schema := Schema.mk ["string"] none none "" [] "" ""

/-- Concrete example node: a plain number-typed leaf. -/
def exLeafNumber : Schema := Schema.mk ["number"] none none "" [] "" ""

/-- Concrete example node: a union with no own type tags and two
alternatives - its own base type is the undetermined sentinel. -/
def exUnion : Schema := Schema.mk [] none none "" [exLeafString, exLeafNumber] "" ""


/-- Claim C1 (code bug): the type-field normalizer handles an absent `"type"`
as the empty tag set, a single string `s` as `{s}`, and `nullable:true` as
additionally inserting `"null"`; but, contrary to the claim, a JSON array of
strings does NOT parse: `json.Unmarshal` into `interface{}` materialises the
array as `[]interface{}`, the source's `case []string` branch can never
match, and the document `{"type":["string","null"]}` falls through to
`default` and fails with the parse error `unexpected type for property
"type"` instead of producing the tag set `{"string","null"}`. -/
theorem c1_type_field_normalizer (s : String) (fuel : Nat) :
    buildTypeSet none none = .ok []
    ∧ buildTypeSet (some (.str s)) none = .ok [s]
    ∧ buildTypeSet (some (.str s)) (some (.bool true)) = .ok (insertTag [s] "null")
    ∧ unmarshalSchema (fuel + 1) (.obj [("type", .arr [.str "string", .str "null"])]) =
        .error "unexpected type for property \"type\"" := by
  refine ⟨rfl, ?_, ?_, rfl⟩
  · simp [buildTypeSet, typeSetOfTypeField, applyNullable, insertTag, Bind.bind, Except.bind]
  · simp [buildTypeSet, typeSetOfTypeField, applyNullable, insertTag, Bind.bind, Except.bind]

/-- Claim C2 (confirmed): `BaseType()` returns the single tag other than
`"null"` when the type set minus `"null"` has exactly one member, `"null"`
when the (non-empty) set strips to nothing, and the empty sentinel `""` when
the set is empty or strips to more than one member. -/
theorem c2_baseType (s : Schema) (x : String) :
    (s.type = [] → s.BaseType = "")
    ∧ (s.type ≠ [] → typesWithoutNull s.type = [] → s.BaseType = "null")
    ∧ (typesWithoutNull s.type = [x] → s.BaseType = x)
    ∧ (2 ≤ (typesWithoutNull s.type).length → s.BaseType = "") := by
  refine ⟨fun h => by simp [Schema.BaseType, h], ?_, ?_, ?_⟩
  · intro h1 h2
    cases hs : s.type with
    | nil => exact absurd hs h1
    | cons a t =>
      rw [hs] at h2
      simp [Schema.BaseType, hs, h2]
  · intro h
    cases hs : s.type with
    | nil => rw [hs] at h; simp [typesWithoutNull] at h
    | cons a t =>
      rw [hs] at h
      simp [Schema.BaseType, hs, h]
  · intro h
    cases hs : s.type with
    | nil => rw [hs] at h; simp [typesWithoutNull] at h
    | cons a t =>
      rw [hs] at h
      rcases hw : typesWithoutNull (a :: t) with _ | ⟨b, _ | ⟨c, u⟩⟩
      · rw [hw] at h; simp at h
      · rw [hw] at h; simp at h
      · simp [Schema.BaseType, hs, hw]

/-- Witness for C2 at the four concrete type sets named by the spec. -/
theorem c2_baseType_witness :
    (Schema.mk [] none none "" [] "" "").BaseType = ""
    ∧ (Schema.mk ["null"] none none "" [] "" "").BaseType = "null"
    ∧ (Schema.mk ["string", "null"] none none "" [] "" "").BaseType = "string"
    ∧ (Schema.mk ["string", "number"] none none "" [] "" "").BaseType = "" :=
  ⟨(c2_baseType (Schema.mk [] none none "" [] "" "") "").1 rfl,
   (c2_baseType (Schema.mk ["null"] none none "" [] "" "") "").2.1 (by decide) rfl,
   (c2_baseType (Schema.mk ["string", "null"] none none "" [] "" "") "string").2.2.1 rfl,
   (c2_baseType (Schema.mk ["string", "number"] none none "" [] "" "") "").2.2.2 (by decide)⟩

/-- Claim C3 (confirmed): `resolveReference` leaves a node with empty `ref`
entirely unchanged and never consults the resolver for it; on a node with a
non-empty `ref` and a successful resolver it clears `ref` and takes `id`,
`type`, `properties` and `items` from the resolved schema while keeping the
node's own `format` and `oneOf`. -/
theorem c3_resolveReference (resolver : ReferenceResolver) (s t : Schema) :
    (s.ref = "" → resolveReference resolver s = .ok s ∧ resolveReferenceCalls s = [])
    ∧ (s.ref ≠ "" → resolver s.ref = .ok t →
        resolveReference resolver s =
          .ok (Schema.mk t.type t.properties t.items s.format s.oneOf t.id "")) := by
  constructor
  · intro h
    exact ⟨by simp [resolveReference, h], by simp [resolveReferenceCalls, h]⟩
  · intro h hr
    simp [resolveReference, h, hr]

/-- Witness for C3: a ref-free node is untouched even by an always-failing
resolver, and a node with `ref = "#/entity"` takes the resolved shape while
keeping its own format and oneOf. -/
theorem c3_resolveReference_witness :
    resolveReference (fun _ => .error "unreachable")
        (Schema.mk ["string"] none none "date-time" [] "" "") =
      .ok (Schema.mk ["string"] none none "date-time" [] "" "")
    ∧ resolveReference (fun _ => .ok (Schema.mk ["string"] none none "fmt" [] "entity" ""))
        (Schema.mk [] none none "date-time" [] "" "#/entity") =
      .ok (Schema.mk ["string"] none none "date-time" [] "entity" "") :=
  ⟨((c3_resolveReference (fun _ => .error "unreachable")
      (Schema.mk ["string"] none none "date-time" [] "" "")
      (Schema.mk [] none none "" [] "" "")).1 rfl).1,
   (c3_resolveReference (fun _ => .ok (Schema.mk ["string"] none none "fmt" [] "entity" ""))
      (Schema.mk [] none none "date-time" [] "" "#/entity")
      (Schema.mk ["string"] none none "fmt" [] "entity" "")).2 (by decide) rfl⟩

/-- Claim C7 (confirmed): a one-element type set marshals as the bare JSON
string, a multi-element set marshals as a JSON array of strings, and
re-parsing a document whose `"type"` is the marshalled bare string yields the
same one-element set. -/
theorem c7_typeSet_roundTrip (x : String) (t : List String) (fuel : Nat) :
    marshalSchemaType [x] = .str x
    ∧ (1 < t.length → marshalSchemaType t = .arr (t.map JVal.str))
    ∧ unmarshalSchema (fuel + 1) (.obj [("type", marshalSchemaType [x])]) =
        .ok (Schema.mk [x] none none "" [] "" "") := by
  refine ⟨rfl, ?_, ?_⟩
  · intro h
    match t with
    | [] => simp at h
    | [a] => simp at h
    | a :: b :: u => rfl
  · simp [marshalSchemaType, unmarshalSchema, parseRefField, parseFormatField, buildTypeSet,
      typeSetOfTypeField, applyNullable, insertTag, List.lookup, Bind.bind, Except.bind,
      Pure.pure, Except.pure]

/-- Witness for C7 at the concrete sets `["string"]` and `["string","null"]`. -/
theorem c7_typeSet_roundTrip_witness :
    marshalSchemaType ["string"] = .str "string"
    ∧ marshalSchemaType ["string", "null"] = .arr [.str "string", .str "null"]
    ∧ unmarshalSchema 1 (.obj [("type", marshalSchemaType ["string"])]) =
        .ok (Schema.mk ["string"] none none "" [] "" "") :=
  ⟨(c7_typeSet_roundTrip "string" ["string", "null"] 0).1,
   (c7_typeSet_roundTrip "string" ["string", "null"] 0).2.1 (by decide),
   (c7_typeSet_roundTrip "string" ["string", "null"] 0).2.2⟩

/-- Claim C10 (confirmed): a node parsed from a document lacking a `"type"`
field carries the empty (non-nil) type set; such a set marshals as the empty
JSON array `[]` (the field is not omitted and is not a string), and
re-parsing that output fails on the `"type"` field, so the
serialize-then-parse round trip fails for every zero-tag node. -/
theorem c10_emptyTypeSet (fuel : Nat) :
    marshalSchemaType [] = .arr []
    ∧ unmarshalSchema (fuel + 1) (.obj []) = .ok (Schema.mk [] none none "" [] "" "")
    ∧ unmarshalSchema (fuel + 1) (.obj [("type", marshalSchemaType [])]) =
        .error "unexpected type for property \"type\"" :=
  ⟨rfl, rfl, rfl⟩

/-- Helper for C5: when the visitor succeeds on every alternative, the
alternatives loop succeeds, its visitor-argument trace is exactly the list of
alternatives, and the pushed items are the visitor images of the
alternatives, each tagged with the `oneOf` path. -/
theorem visitAlts_ok (walker : SchemaWalker) (path : List String) (property : String) :
    ∀ alts : List Schema, (∀ a ∈ alts, ∃ a', walker a = .ok a') →
      ∃ ps, visitAlts walker path property alts = .ok (alts, ps)
        ∧ List.Forall₂ (fun a q => walker a = .ok q.node
            ∧ q.path = path ++ ["properties", property, "oneOf"]) alts ps
  | [], _ => ⟨[], rfl, List.Forall₂.nil⟩
  | a :: rest, h => by
    obtain ⟨a', ha⟩ := h a (by simp)
    obtain ⟨ps, hps, hall⟩ := visitAlts_ok walker path property rest
      (fun b hb => h b (by simp [hb]))
    refine ⟨⟨a', path ++ ["properties", property, "oneOf"]⟩ :: ps, ?_, ?_⟩
    · simp [visitAlts, ha, hps]
    · exact List.Forall₂.cons ⟨ha, rfl⟩ hall

/-- Claim C5 (confirmed): for a property whose (post-visitor) schema has a
non-empty `oneOf`, the walker calls the visitor once on the property's schema
and then exactly once per alternative, pushes every alternative (its visitor
image) for further descent, and never reaches the base-type dispatch — in
particular no SchemaShapeError is raised for the property even when its own
type set is empty or ambiguous (nothing here constrains `s'.type`). -/
theorem c5_oneOf_bypasses_dispatch (walker : SchemaWalker) (path : List String)
    (property : String) (s s' : Schema) (rest : List (String × Schema))
    (tr2 : List Schema) (ps2 : List StackItem)
    (hs : walker s = .ok s') (hne : s'.oneOf ≠ [])
    (hAlts : ∀ a ∈ s'.oneOf, ∃ a', walker a = .ok a')
    (hrest : processProps walker path rest = .ok (tr2, ps2)) :
    ∃ ps, processProps walker path ((property, s) :: rest) =
        .ok (s :: (s'.oneOf ++ tr2), ps ++ ps2)
      ∧ List.Forall₂ (fun a q => walker a = .ok q.node
          ∧ q.path = path ++ ["properties", property, "oneOf"]) s'.oneOf ps := by
  obtain ⟨ps, hps, hall⟩ := visitAlts_ok walker path property s'.oneOf hAlts
  refine ⟨ps, ?_, hall⟩
  have hempty : s'.oneOf.isEmpty = false := by
    cases ho : s'.oneOf with
    | nil => exact absurd ho hne
    | cons a l => simp
  simp [processProps, hs, hempty, hps, hrest]

/-- Witness for C5: a property whose schema has an empty type set (so its
base type is the undetermined sentinel) but two `oneOf` alternatives is
processed without any error: the no-op visitor is called on the property's
schema and then on both alternatives, and both alternatives are pushed. -/
theorem c5_oneOf_witness :
    ∃ ps, processProps noopWalker [] [("u", exUnion)] =
        .ok (exUnion :: (exUnion.oneOf ++ []), ps ++ [])
      ∧ List.Forall₂ (fun a q => noopWalker a = .ok q.node
          ∧ q.path = [] ++ ["properties", "u", "oneOf"]) exUnion.oneOf ps :=
  c5_oneOf_bypasses_dispatch noopWalker [] "u" exUnion exUnion [] [] []
    rfl (by simp [exUnion, Schema.oneOf]) (fun a _ => ⟨a, rfl⟩) rfl

/-- Claim C8 (confirmed): the walk never hands the root itself to the
visitor; a root with absent properties is popped and skipped, so the walk
returns success with an empty visitor trace for every visitor, and
`ResolveReferences` likewise succeeds without a single visitor application —
in particular a non-empty `ref` on the root itself is never examined and
stays unresolved. -/
theorem c8_root_never_visited (walker : SchemaWalker) (resolver : ReferenceResolver)
    (root : Schema) (fuel : Nat) (h : root.properties = none) :
    root.Walk walker (fuel + 1) = some (.ok [])
    ∧ root.ResolveReferences resolver (fuel + 1) = some (.ok []) := by
  constructor
  · simp [Schema.Walk, walkLoop, h]
  · simp [Schema.ResolveReferences, Schema.Walk, walkLoop, h]

/-- Witness for C8: a root carrying an unresolved `$ref` but no properties:
both a plain walk and reference resolution succeed with zero visits. -/
theorem c8_root_never_visited_witness :
    (Schema.mk [] none none "" [] "" "#/entity").Walk noopWalker 1 = some (.ok [])
    ∧ (Schema.mk [] none none "" [] "" "#/entity").ResolveReferences
        (fun _ => .error "unreachable") 1 = some (.ok []) :=
  c8_root_never_visited noopWalker (fun _ => .error "unreachable")
    (Schema.mk [] none none "" [] "" "#/entity") 0 rfl

/-- Helper for C4: with the no-op visitor, a prefix of scalar properties is
visited one by one, pushes nothing, and passes control to the remaining
properties, prepending its children to the trace. -/
theorem processProps_scalar_prefix (path : List String) :
    ∀ (pre rest : List (String × Schema)), (∀ q ∈ pre, ScalarProp q.2) →
      processProps noopWalker path (pre ++ rest) =
        match processProps noopWalker path rest with
        | .error e => .error e
        | .ok (tr, ps) => .ok (pre.map Prod.snd ++ tr, ps)
  | [], rest, _ => by
    cases hr : processProps noopWalker path rest with
    | error e => simp [hr]
    | ok r => cases r with | mk tr ps => simp [hr]
  | (p, s) :: pre, rest, h => by
    obtain ⟨ho, hnz, hna, hno⟩ := h (p, s) (by simp)
    have ih := processProps_scalar_prefix path pre rest (fun q hq => h q (by simp [hq]))
    have hempty : s.oneOf.isEmpty = true := by simp [ho]
    cases hr : processProps noopWalker path rest with
    | error e =>
      rw [hr] at ih
      simp [processProps, noopWalker, hempty, hnz, hna, hno, ih, hr]
    | ok r =>
      cases r with
      | mk tr ps =>
        rw [hr] at ih
        simp [processProps, noopWalker, hempty, hnz, hna, hno, ih, hr]

/-- Claim C4, counterexample to the claim as stated: this tree contains a
property (`"b"`, nested under the string-typed property `"a"`) whose schema
has base type `"array"`, no `oneOf` alternatives and no `items`, yet `Walk`
succeeds: the walker never descends below a string-typed property, so the
malformed array property is unreachable and no SchemaShapeError is
produced. -/
theorem c4_counterexample :
    (Schema.mk ["array"] none none "" [] "" "").BaseType = TYPE_ARRAY
    ∧ (Schema.mk ["array"] none none "" [] "" "").oneOf = []
    ∧ (Schema.mk ["array"] none none "" [] "" "").items = none
    ∧ (Schema.mk ["object"]
        (some [("a", Schema.mk ["string"]
          (some [("b", Schema.mk ["array"] none none "" [] "" "")]) none "" [] "" "")])
        none "" [] "" "").Walk noopWalker 2 =
      some (.ok [Schema.mk ["string"]
        (some [("b", Schema.mk ["array"] none none "" [] "" "")]) none "" [] "" ""]) :=
  ⟨rfl, rfl, rfl, rfl⟩

/-- Claim C4 (amended): if the malformed array property is actually reached
by the walk — here, a direct property of the root, with every other root
property a well-shaped scalar — then `Walk` (with the no-op visitor) fails
with the SchemaShapeError naming that property; and with an `items` schema
added to that property (a leaf, so the whole tree is well-shaped), `Walk`
succeeds, the visitor is invoked on the items schema, and the items schema is
pushed and expanded. -/
theorem c4_array_items (pre post : List (String × Schema)) (property : String)
    (bad it root : Schema) (fuel : Nat)
    (hpre : ∀ q ∈ pre, ScalarProp q.2) (hpost : ∀ q ∈ post, ScalarProp q.2)
    (hone : bad.oneOf = []) (hbase : bad.BaseType = TYPE_ARRAY)
    (hroot : root.properties = some (pre ++ (property, bad) :: post)) :
    (bad.items = none →
      root.Walk noopWalker (fuel + 1) = some (.error (.itemsNotFound property)))
    ∧ (bad.items = some it → it.properties = none →
      root.Walk noopWalker (fuel + 2) =
        some (.ok (pre.map Prod.snd ++ bad :: it :: post.map Prod.snd))) := by
  have hempty : bad.oneOf.isEmpty = true := by simp [hone]
  have hnz : bad.BaseType ≠ "" := by rw [hbase]; decide
  have hta : ¬TYPE_ARRAY = "" := by decide
  constructor
  · intro hit
    have hmid : processProps noopWalker [] ((property, bad) :: post) =
        .error (.itemsNotFound property) := by
      simp [processProps, noopWalker, hempty, hnz, hta, hbase, hit]
    have := processProps_scalar_prefix [] pre ((property, bad) :: post) hpre
    rw [hmid] at this
    simp [Schema.Walk, walkLoop, hroot, this]
  · intro hit hitprops
    have hpost' : processProps noopWalker [] post = .ok (post.map Prod.snd, []) := by
      have := processProps_scalar_prefix [] post [] hpost
      simpa [processProps] using this
    have hmid : processProps noopWalker [] ((property, bad) :: post) =
        .ok (bad :: it :: post.map Prod.snd,
          [⟨it, [] ++ ["properties", property, "items"]⟩]) := by
      simp [processProps, noopWalker, hempty, hnz, hta, hbase, hit, hpost']
    have hpre' := processProps_scalar_prefix [] pre ((property, bad) :: post) hpre
    rw [hmid] at hpre'
    simp [Schema.Walk, walkLoop, hroot, hpre', hitprops]

/-- Witness for C4 (amended): a root with scalar properties around the
malformed array property `"tags"`: the walk fails naming `"tags"`; with a
string leaf as `items`, the walk succeeds and visits the items schema. -/
theorem c4_array_items_witness :
    (Schema.mk ["object"] (some [("x", exLeafString),
        ("tags", Schema.mk ["array"] none none "" [] "" ""), ("y", exLeafNumber)])
        none "" [] "" "").Walk noopWalker 1 = some (.error (.itemsNotFound "tags"))
    ∧ (Schema.mk ["object"] (some [("x", exLeafString),
        ("tags", Schema.mk ["array"] none (some exLeafString) "" [] "" ""),
        ("y", exLeafNumber)])
        none "" [] "" "").Walk noopWalker 2 =
      some (.ok [exLeafString, Schema.mk ["array"] none (some exLeafString) "" [] "" "",
        exLeafString, exLeafNumber]) := by
  constructor
  · exact ((c4_array_items [("x", exLeafString)] [("y", exLeafNumber)] "tags"
      (Schema.mk ["array"] none none "" [] "" "") exLeafString
      (Schema.mk ["object"] (some [("x", exLeafString),
        ("tags", Schema.mk ["array"] none none "" [] "" ""), ("y", exLeafNumber)])
        none "" [] "" "") 0
      (by intro q hq; simp at hq; subst hq; exact ⟨rfl, by decide, by decide, by decide⟩)
      (by intro q hq; simp at hq; subst hq; exact ⟨rfl, by decide, by decide, by decide⟩)
      rfl rfl rfl).1 rfl)
  · exact ((c4_array_items [("x", exLeafString)] [("y", exLeafNumber)] "tags"
      (Schema.mk ["array"] none (some exLeafString) "" [] "" "") exLeafString
      (Schema.mk ["object"] (some [("x", exLeafString),
        ("tags", Schema.mk ["array"] none (some exLeafString) "" [] "" ""),
        ("y", exLeafNumber)]) none "" [] "" "") 0
      (by intro q hq; simp at hq; subst hq; exact ⟨rfl, by decide, by decide, by decide⟩)
      (by intro q hq; simp at hq; subst hq; exact ⟨rfl, by decide, by decide, by decide⟩)
      rfl rfl rfl).2 rfl rfl)

/-- Helper for C6: on alternatives that are all ref-free, the
reference-resolving visitor behaves exactly like the no-op visitor. -/
theorem visitAlts_refFree (resolver : ReferenceResolver) (path : List String)
    (property : String) :
    ∀ (alts tr : List Schema) (ps : List StackItem),
      visitAlts noopWalker path property alts = .ok (tr, ps) →
      (∀ n ∈ tr, n.ref = "") →
      visitAlts (resolveReference resolver) path property alts = .ok (tr, ps)
  | [], tr, ps, h, _ => h
  | a :: rest, tr, ps, h, hfree => by
    rw [visitAlts] at h
    simp only [noopWalker] at h
    cases hv : visitAlts noopWalker path property rest with
    | error e => rw [hv] at h; exact absurd h (by simp)
    | ok r =>
      cases r with
      | mk tr0 ps0 =>
        rw [hv] at h
        injection h with h
        injection h with h1 h2
        subst h1; subst h2
        have ha : (resolveReference resolver) a = .ok a := by
          simp [resolveReference, hfree a (by simp)]
        have ih := visitAlts_refFree resolver path property rest tr0 ps0 hv
          (fun n hn => hfree n (by simp [hn]))
        simp [visitAlts, ha, ih]

/-- Helper for C6: on a property list whose no-op walk trace is all ref-free,
the reference-resolving visitor processes the properties to the identical
trace and pushes. -/
theorem processProps_refFree (resolver : ReferenceResolver) (path : List String) :
    ∀ (props : List (String × Schema)) (tr : List Schema) (ps : List StackItem),
      processProps noopWalker path props = .ok (tr, ps) →
      (∀ n ∈ tr, n.ref = "") →
      processProps (resolveReference resolver) path props = .ok (tr, ps)
  | [], tr, ps, h, _ => h
  | (p, s) :: rest, tr, ps, h, hfree => by
    have t1 : ¬TYPE_ARRAY = "" := by decide
    have t2 : ¬TYPE_OBJECT = "" := by decide
    have t3 : ¬TYPE_OBJECT = TYPE_ARRAY := by decide
    rw [processProps] at h
    simp only [noopWalker] at h
    by_cases hempty : s.oneOf.isEmpty = true
    · rw [if_pos hempty] at h
      by_cases hz : s.BaseType = ""
      · rw [if_pos hz] at h; exact absurd h (by simp)
      · rw [if_neg hz] at h
        by_cases harr : s.BaseType = TYPE_ARRAY
        · rw [if_pos harr] at h
          cases hitems : s.items with
          | none => rw [hitems] at h; exact absurd h (by simp)
          | some items =>
            rw [hitems] at h
            cases hrest : processProps noopWalker path rest with
            | error e => rw [hrest] at h; exact absurd h (by simp)
            | ok r =>
              cases r with
              | mk tr0 ps0 =>
                rw [hrest] at h
                injection h with h
                injection h with h1 h2
                subst h1; subst h2
                have hsfree : s.ref = "" := hfree s (by simp)
                have hifree : items.ref = "" := hfree items (by simp)
                have hs : (resolveReference resolver) s = .ok s := by
                  simp [resolveReference, hsfree]
                have hi : (resolveReference resolver) items = .ok items := by
                  simp [resolveReference, hifree]
                have ih := processProps_refFree resolver path rest tr0 ps0 hrest
                  (fun n hn => hfree n (by simp [hn]))
                simp [processProps, hs, hempty, hz, harr, hitems, hi, ih, t1]
        · rw [if_neg harr] at h
          by_cases hobj : s.BaseType = TYPE_OBJECT
          · rw [if_pos hobj] at h
            cases hrest : processProps noopWalker path rest with
            | error e => rw [hrest] at h; exact absurd h (by simp)
            | ok r =>
              cases r with
              | mk tr0 ps0 =>
                rw [hrest] at h
                injection h with h
                injection h with h1 h2
                subst h1; subst h2
                have hsfree : s.ref = "" := hfree s (by simp)
                have hs : (resolveReference resolver) s = .ok s := by
                  simp [resolveReference, hsfree]
                have ih := processProps_refFree resolver path rest tr0 ps0 hrest
                  (fun n hn => hfree n (by simp [hn]))
                simp [processProps, hs, hempty, hz, harr, hobj, ih, t2, t3]
          · rw [if_neg hobj] at h
            cases hrest : processProps noopWalker path rest with
            | error e => rw [hrest] at h; exact absurd h (by simp)
            | ok r =>
              cases r with
              | mk tr0 ps0 =>
                rw [hrest] at h
                injection h with h
                injection h with h1 h2
                subst h1; subst h2
                have hsfree : s.ref = "" := hfree s (by simp)
                have hs : (resolveReference resolver) s = .ok s := by
                  simp [resolveReference, hsfree]
                have ih := processProps_refFree resolver path rest tr0 ps0 hrest
                  (fun n hn => hfree n (by simp [hn]))
                simp [processProps, hs, hempty, hz, harr, hobj, ih]
    · rw [if_neg hempty] at h
      cases halts : visitAlts noopWalker path p s.oneOf with
      | error e => rw [halts] at h; exact absurd h (by simp)
      | ok rA =>
        cases rA with
        | mk trA psA =>
          rw [halts] at h
          cases hrest : processProps noopWalker path rest with
          | error e => rw [hrest] at h; exact absurd h (by simp)
          | ok r =>
            cases r with
            | mk tr0 ps0 =>
              rw [hrest] at h
              injection h with h
              injection h with h1 h2
              subst h1; subst h2
              have hsfree : s.ref = "" := hfree s (by simp)
              have hs : (resolveReference resolver) s = .ok s := by
                simp [resolveReference, hsfree]
              have ihA := visitAlts_refFree resolver path p s.oneOf trA psA halts
                (fun n hn => hfree n (by simp [hn]))
              have ih := processProps_refFree resolver path rest tr0 ps0 hrest
                (fun n hn => hfree n (by simp [hn]))
              simp [processProps, hs, hempty, ihA, ih]

/-- Helper for C6: a whole no-op walk whose trace is ref-free is replayed
identically by the reference-resolving visitor. -/
theorem walkLoop_refFree (resolver : ReferenceResolver) :
    ∀ (fuel : Nat) (stack : List StackItem) (tr : List Schema),
      walkLoop noopWalker fuel stack = some (.ok tr) →
      (∀ n ∈ tr, n.ref = "") →
      walkLoop (resolveReference resolver) fuel stack = some (.ok tr) := by
  intro fuel
  induction fuel with
  | zero =>
    intro stack tr h _
    cases stack with
    | nil => exact h
    | cons item rest => exact absurd h (by simp [walkLoop])
  | succ n ih =>
    intro stack tr h hfree
    cases stack with
    | nil => exact h
    | cons item rest =>
      rw [walkLoop] at h
      cases hp : item.node.properties with
      | none =>
        simp only [hp] at h
        rw [walkLoop, hp]
        exact ih rest tr h hfree
      | some props =>
        simp only [hp] at h
        cases hpp : processProps noopWalker item.path props with
        | error e => simp only [hpp] at h; exact absurd h (by simp)
        | ok r =>
          cases r with
          | mk tr1 ps =>
            simp only [hpp] at h
            cases hw : walkLoop noopWalker n (ps.reverse ++ rest) with
            | none => simp only [hw] at h; exact absurd h (by simp)
            | some r2 =>
              cases r2 with
              | error e => simp only [hw] at h; exact absurd h (by simp)
              | ok tr2 =>
                simp only [hw, Option.some.injEq, Except.ok.injEq] at h
                subst h
                have h1 := processProps_refFree resolver item.path props tr1 ps hpp
                  (fun q hq => hfree q (by simp [hq]))
                have h2 := ih (ps.reverse ++ rest) tr2 hw
                  (fun q hq => hfree q (by simp [hq]))
                rw [walkLoop]
                simp only [hp, h1, h2]

/-- Claim C6, counterexample to the claim as stated: a tree with no `$ref`
anywhere (both nodes shown have empty `ref`) on which `ResolveReferences`
does NOT return success: the property `"a"` has an empty type set, so the
walk aborts with the SchemaShapeError naming `"a"` even though there is
nothing to resolve. -/
theorem c6_counterexample :
    (Schema.mk ["object"] (some [("a", Schema.mk [] none none "" [] "" "")])
        none "" [] "" "").ref = ""
    ∧ (Schema.mk [] none none "" [] "" "").ref = ""
    ∧ (Schema.mk ["object"] (some [("a", Schema.mk [] none none "" [] "" "")])
        none "" [] "" "").ResolveReferences (fun _ => .error "no refs") 2 =
      some (.error (.typeNotFound "a")) :=
  ⟨rfl, rfl, rfl⟩

/-- Claim C6 (amended): on a tree whose no-op walk succeeds and visits only
ref-free nodes, `ResolveReferences` is a no-op for every resolver: it returns
the same successful result, leaves every visited node unchanged
(`resolveReference` maps each one to itself), and never queries the resolver
(each visited node triggers zero resolver calls).  The original claim's
unconditional "returns success" fails when a ref-free tree is shape-invalid
(see the counterexample): the walk can abort with a SchemaShapeError. -/
theorem c6_resolution_noop (resolver : ReferenceResolver) (root : Schema)
    (fuel : Nat) (tr : List Schema)
    (h : root.Walk noopWalker fuel = some (.ok tr))
    (hfree : ∀ n ∈ tr, n.ref = "") :
    root.ResolveReferences resolver fuel = some (.ok tr)
    ∧ ∀ n ∈ tr, resolveReference resolver n = .ok n ∧ resolveReferenceCalls n = [] := by
  constructor
  · exact walkLoop_refFree resolver fuel [⟨root, []⟩] tr h hfree
  · intro n hn
    have := hfree n hn
    exact ⟨by simp [resolveReference, this], by simp [resolveReferenceCalls, this]⟩

/-- Witness for C6: a ref-free two-level tree: the no-op walk visits the one
string-typed property, and reference resolution with an always-failing
resolver replays it successfully without consulting the resolver. -/
theorem c6_resolution_noop_witness :
    (Schema.mk ["object"] (some [("x", exLeafString)]) none "" [] "" "").ResolveReferences
        (fun _ => .error "unreachable") 2 = some (.ok [exLeafString])
    ∧ ∀ n ∈ [exLeafString], resolveReference (fun _ => .error "unreachable") n = .ok n
        ∧ resolveReferenceCalls n = [] :=
  c6_resolution_noop (fun _ => .error "unreachable")
    (Schema.mk ["object"] (some [("x", exLeafString)]) none "" [] "" "") 2 [exLeafString]
    rfl (by intro n hn; simp at hn; subst hn; rfl)

/-- Helper for C9's counterexample: from any object node of the form
`{"type":"object","properties":{"a": c}}`, the walk with the wrapping visitor
runs forever: the visitor turns the property `a` into exactly such an object
node again, which has base type `"object"` and is pushed, reproducing the
same stack shape at every iteration, so every fuel runs out. -/
theorem wrapWalker_diverges :
    ∀ (fuel : Nat) (c : Schema) (path : List String),
      walkLoop wrapWalker fuel
        [⟨Schema.mk ["object"] (some [("a", c)]) none "" [] "" "", path⟩] = none := by
  intro fuel
  induction fuel with
  | zero => intro c path; rfl
  | succ n ih =>
    intro c path
    show (match walkLoop wrapWalker n
        [⟨Schema.mk ["object"] (some [("a", c)]) none "" [] "" "",
          path ++ ["properties", "a"]⟩] with
      | none => none
      | some (Except.error e) => some (Except.error e)
      | some (Except.ok tr') => some (Except.ok ([c] ++ tr'))) = none
    rw [ih c (path ++ ["properties", "a"])]

/-- Claim C9, counterexample to the claim as stated: the input is a finite
tree (an object root with one object-typed property holding a string leaf)
and the visitor terminates on every call and creates neither sharing nor
cycles — it merely replaces each node by a fresh, larger object node — yet
`Walk` does not terminate: no amount of fuel makes the loop return, because
an iteration may push a node that is not a descendant of the input tree. -/
theorem c9_counterexample :
    ¬ ∃ (fuel : Nat) (r : Except WalkErr (List Schema)),
      (Schema.mk ["object"] (some [("a", exLeafString)]) none "" [] "" "").Walk
        wrapWalker fuel = some r := by
  rintro ⟨fuel, r, h⟩
  rw [Schema.Walk, wrapWalker_diverges fuel exLeafString []] at h
  exact Option.noConfusion h

/-- Every schema node has positive size. -/
theorem schema_sizeOf_pos (s : Schema) : 1 ≤ sizeOf s := by
  cases s with
  | mk t p i f o d r => simp only [Schema.mk.sizeOf_spec]; omega

/-- The `OneOf` list of a node is smaller than the node. -/
theorem sizeOf_oneOf_lt (s : Schema) : sizeOf s.oneOf < sizeOf s := by
  cases s with
  | mk t p i f o d r => simp only [Schema.oneOf, Schema.mk.sizeOf_spec]; omega

/-- A present `Items` child is smaller than its node. -/
theorem sizeOf_items_lt {s it : Schema} (h : s.items = some it) : sizeOf it < sizeOf s := by
  cases s with
  | mk t p i f o d r =>
    simp only [Schema.items] at h
    subst h
    simp only [Schema.mk.sizeOf_spec, Option.some.sizeOf_spec]
    omega

/-- The schema-sum of a list is below the list's own size. -/
theorem schemaListSize_lt (l : List Schema) : schemaListSize l < sizeOf l := by
  induction l with
  | nil => simp only [schemaListSize, List.nil.sizeOf_spec]; omega
  | cons a t ih => simp only [schemaListSize, List.cons.sizeOf_spec]; omega

/-- The child-sum of a property list is below the list's own size. -/
theorem propsListSize_lt (l : List (String × Schema)) : propsChildSize l < sizeOf l := by
  induction l with
  | nil => simp only [propsChildSize, List.nil.sizeOf_spec]; omega
  | cons q t ih =>
    obtain ⟨k, v⟩ := q
    simp only [propsChildSize, List.cons.sizeOf_spec, Prod.mk.sizeOf_spec]
    omega

/-- The children of a present properties map weigh less than the node. -/
theorem propsChildSize_lt_schema {s : Schema} {props : List (String × Schema)}
    (h : s.properties = some props) : propsChildSize props < sizeOf s := by
  cases s with
  | mk t p i f o d r =>
    simp only [Schema.properties] at h
    subst h
    have := propsListSize_lt props
    simp only [Schema.mk.sizeOf_spec, Option.some.sizeOf_spec]
    omega

/-- Stack measure distributes over append. -/
theorem stackSize_append : ∀ (a b : List StackItem),
    stackSize (a ++ b) = stackSize a + stackSize b
  | [], b => by simp [stackSize]
  | i :: t, b => by
    show sizeOf i.node + stackSize (t ++ b) = sizeOf i.node + stackSize t + stackSize b
    rw [stackSize_append t b]
    omega

/-- Stack measure is invariant under reversal. -/
theorem stackSize_reverse (a : List StackItem) : stackSize a.reverse = stackSize a := by
  induction a with
  | nil => rfl
  | cons i t ih =>
    simp only [List.reverse_cons, stackSize_append, stackSize, ih]
    omega

/-- For a non-growing visitor, the items pushed by the alternatives loop
weigh at most the alternatives themselves. -/
theorem visitAlts_size (walker : SchemaWalker)
    (hW : ∀ s s', walker s = .ok s' → sizeOf s' ≤ sizeOf s)
    (path : List String) (property : String) :
    ∀ (alts tr : List Schema) (ps : List StackItem),
      visitAlts walker path property alts = .ok (tr, ps) →
      stackSize ps ≤ schemaListSize alts
  | [], tr, ps, h => by
    simp only [visitAlts, Except.ok.injEq, Prod.mk.injEq] at h
    obtain ⟨h1, h2⟩ := h
    subst h2
    exact Nat.le_refl 0
  | a :: rest, tr, ps, h => by
    rw [visitAlts] at h
    cases hw : walker a with
    | error e => simp only [hw] at h; exact absurd h (by simp)
    | ok a' =>
      simp only [hw] at h
      cases hv : visitAlts walker path property rest with
      | error e => simp only [hv] at h; exact absurd h (by simp)
      | ok r =>
        obtain ⟨tr0, ps0⟩ := r
        simp only [hv, Except.ok.injEq, Prod.mk.injEq] at h
        obtain ⟨h1, h2⟩ := h
        subst h2
        have hrec := visitAlts_size walker hW path property rest tr0 ps0 hv
        have ha := hW a a' hw
        simp only [stackSize, schemaListSize]
        omega

/-- For a non-growing visitor, the items one iteration pushes weigh at most
the property children of the popped node. -/
theorem processProps_size (walker : SchemaWalker)
    (hW : ∀ s s', walker s = .ok s' → sizeOf s' ≤ sizeOf s) (path : List String) :
    ∀ (props : List (String × Schema)) (tr : List Schema) (ps : List StackItem),
      processProps walker path props = .ok (tr, ps) →
      stackSize ps ≤ propsChildSize props
  | [], tr, ps, h => by
    simp only [processProps, Except.ok.injEq, Prod.mk.injEq] at h
    obtain ⟨h1, h2⟩ := h
    subst h2
    exact Nat.le_refl 0
  | (p, s) :: rest, tr, ps, h => by
    rw [processProps] at h
    cases hw : walker s with
    | error e => simp only [hw] at h; exact absurd h (by simp)
    | ok s' =>
      simp only [hw] at h
      have hs := hW s s' hw
      by_cases hempty : s'.oneOf.isEmpty = true
      · rw [if_pos hempty] at h
        by_cases hz : s'.BaseType = ""
        · rw [if_pos hz] at h; exact absurd h (by simp)
        · rw [if_neg hz] at h
          by_cases harr : s'.BaseType = TYPE_ARRAY
          · rw [if_pos harr] at h
            cases hitems : s'.items with
            | none => simp only [hitems] at h; exact absurd h (by simp)
            | some items =>
              simp only [hitems] at h
              cases hwi : walker items with
              | error e => simp only [hwi] at h; exact absurd h (by simp)
              | ok items' =>
                simp only [hwi] at h
                cases hrest : processProps walker path rest with
                | error e => simp only [hrest] at h; exact absurd h (by simp)
                | ok r =>
                  obtain ⟨tr0, ps0⟩ := r
                  simp only [hrest, Except.ok.injEq, Prod.mk.injEq] at h
                  obtain ⟨h1, h2⟩ := h
                  subst h2
                  have hrec := processProps_size walker hW path rest tr0 ps0 hrest
                  have hi := hW items items' hwi
                  have hlt := sizeOf_items_lt hitems
                  simp only [stackSize, propsChildSize]
                  omega
          · rw [if_neg harr] at h
            by_cases hobj : s'.BaseType = TYPE_OBJECT
            · rw [if_pos hobj] at h
              cases hrest : processProps walker path rest with
              | error e => simp only [hrest] at h; exact absurd h (by simp)
              | ok r =>
                obtain ⟨tr0, ps0⟩ := r
                simp only [hrest, Except.ok.injEq, Prod.mk.injEq] at h
                obtain ⟨h1, h2⟩ := h
                subst h2
                have hrec := processProps_size walker hW path rest tr0 ps0 hrest
                simp only [stackSize, propsChildSize]
                omega
            · rw [if_neg hobj] at h
              cases hrest : processProps walker path rest with
              | error e => simp only [hrest] at h; exact absurd h (by simp)
              | ok r =>
                obtain ⟨tr0, ps0⟩ := r
                simp only [hrest, Except.ok.injEq, Prod.mk.injEq] at h
                obtain ⟨h1, h2⟩ := h
                subst h2
                have hrec := processProps_size walker hW path rest tr0 ps0 hrest
                simp only [propsChildSize]
                omega
      · rw [if_neg hempty] at h
        cases halts : visitAlts walker path p s'.oneOf with
        | error e => simp only [halts] at h; exact absurd h (by simp)
        | ok rA =>
          obtain ⟨trA, psA⟩ := rA
          simp only [halts] at h
          cases hrest : processProps walker path rest with
          | error e => simp only [hrest] at h; exact absurd h (by simp)
          | ok r =>
            obtain ⟨tr0, ps0⟩ := r
            simp only [hrest, Except.ok.injEq, Prod.mk.injEq] at h
            obtain ⟨h1, h2⟩ := h
            subst h2
            have hrec := processProps_size walker hW path rest tr0 ps0 hrest
            have hA := visitAlts_size walker hW path p s'.oneOf trA psA halts
            have h1' := schemaListSize_lt s'.oneOf
            have h2' := sizeOf_oneOf_lt s'
            have h3' := stackSize_append psA ps0
            simp only [propsChildSize]
            omega

/-- Helper for C9 (amended): with a non-growing visitor, any fuel strictly
above the stack measure suffices for the walk loop to return. -/
theorem walkLoop_dom (walker : SchemaWalker)
    (hW : ∀ s s', walker s = .ok s' → sizeOf s' ≤ sizeOf s) :
    ∀ (fuel : Nat) (stack : List StackItem), stackSize stack < fuel →
      ∃ r, walkLoop walker fuel stack = some r := by
  intro fuel
  induction fuel with
  | zero => intro stack h; exact absurd h (Nat.not_lt_zero _)
  | succ n ih =>
    intro stack h
    cases stack with
    | nil => exact ⟨.ok [], rfl⟩
    | cons item rest =>
      cases hp : item.node.properties with
      | none =>
        have h1 := schema_sizeOf_pos item.node
        have hm : stackSize rest < n := by simp only [stackSize] at h; omega
        obtain ⟨r, hr⟩ := ih rest hm
        exact ⟨r, by rw [walkLoop]; simp only [hp]; exact hr⟩
      | some props =>
        cases hpp : processProps walker item.path props with
        | error e => exact ⟨.error e, by rw [walkLoop]; simp only [hp, hpp]⟩
        | ok r0 =>
          obtain ⟨tr1, ps⟩ := r0
          have hps := processProps_size walker hW item.path props tr1 ps hpp
          have hlt : propsChildSize props < sizeOf item.node := propsChildSize_lt_schema hp
          have hm : stackSize (ps.reverse ++ rest) < n := by
            have ha := stackSize_append ps.reverse rest
            have hb := stackSize_reverse ps
            simp only [stackSize] at h
            omega
          obtain ⟨r2, hr2⟩ := ih (ps.reverse ++ rest) hm
          cases r2 with
          | error e => exact ⟨.error e, by rw [walkLoop]; simp only [hp, hpp, hr2]⟩
          | ok tr2 =>
            exact ⟨.ok (tr1 ++ tr2), by rw [walkLoop]; simp only [hp, hpp, hr2]⟩

/-- Claim C9 (amended): the walk terminates for every visitor that never
replaces a node by a strictly larger one (in particular for every
non-mutating visitor, the reference resolver on ref-free trees included):
each iteration pops one work item and pushes only items whose nodes weigh
strictly less, in total, than the popped node, so some fuel makes the loop
return.  The claim as stated — termination for every terminating visitor
that introduces no sharing and no cycles — is refuted by the counterexample:
a visitor that grafts fresh larger nodes keeps the stack forever non-empty. -/
theorem c9_walk_terminates (walker : SchemaWalker) (root : Schema)
    (hW : ∀ s s', walker s = .ok s' → sizeOf s' ≤ sizeOf s) :
    ∃ (fuel : Nat) (r : Except WalkErr (List Schema)), root.Walk walker fuel = some r := by
  obtain ⟨r, hr⟩ := walkLoop_dom walker hW (stackSize [⟨root, []⟩] + 1) [⟨root, []⟩]
    (Nat.lt_succ_self _)
  exact ⟨stackSize [⟨root, []⟩] + 1, r, hr⟩

/-- Witness for C9 (amended): the no-op visitor never grows a node, so the
walk over a concrete two-level tree terminates. -/
theorem c9_walk_terminates_witness :
    ∃ (fuel : Nat) (r : Except WalkErr (List Schema)),
      (Schema.mk ["object"] (some [("x", exLeafString)]) none "" [] "" "").Walk
        noopWalker fuel = some r :=
  c9_walk_terminates noopWalker
    (Schema.mk ["object"] (some [("x", exLeafString)]) none "" [] "" "")
    (fun s s' h => by
      simp only [noopWalker, Except.ok.injEq] at h
      subst h
      exact Nat.le_refl _)
